import Mathlib

/-!
Verification of the AWX `cleanup_jobs` management command
(`awx/main/management/commands/cleanup_jobs.py`).

The command walks every record of up to seven categories (jobs, ad hoc
commands, project updates, inventory updates, management jobs, workflow
jobs, notifications), decides for each record whether to skip it or
delete it, and reports per-category `(deleted, skipped)` totals.

The shallow embedding below models:
  - timestamps as `Int` day ordinals (Python `datetime` day ordinals run
    from 1 = 0001-01-01 to 3652059 = 9999-12-31);
  - statuses as `String`s, exactly as in the source;
  - the per-record decision of each `cleanup_*` method as a four-way
    `Decision` (the four branches of the source's if/elif chains);
  - each `cleanup_*` loop as a pure function from the record list to
    `(skipped, deleted, remaining records)`;
  - `handle_noargs` as a function from options, the current time and a
    store snapshot to `Except`: cutoff computation (with the
    `OverflowError` -> `CommandError` translation of lines 238-241),
    category selection (lines 242-249) and the sequential per-category
    runs with their summaries (lines 250-257).  Each `cleanup_*` method
    reads and writes only its own table, so the store is threaded
    per-field.
-/

/-- Statuses that force a skip for all categories except notifications:
the tuple `('pending', 'waiting', 'running')` of the source. -/
def nonTerminalStatuses : List String := ["pending", "waiting", "running"]

/-- The four outcomes of the if/elif/else chain each `cleanup_*` method
runs on a record: skip because the status is non-terminal, skip because
the record is a protected current/last update pointer, skip because the
record is newer than the cutoff, or fall through to deletion. -/
inductive Decision where
  | SkipActive
  | SkipProtected
  | SkipRecent
  | Eligible
deriving DecidableEq

/-- A record of one of the categories whose decision depends only on
`status` and `created`: Job, AdHocCommand, SystemJob (management job),
WorkflowJob and Notification. -/
structure SimpleRec where
  status : String
  created : Int
deriving DecidableEq

/-- The fields of a parent `Project` that `cleanup_project_updates`
reads: the primary keys of its `current_update` and `last_update`
pointers (`none` = NULL) and its `scm_type` (empty string = manual
project, falsy in Python). -/
structure ProjectRec where
  current_update : Option Nat
  last_update : Option Nat
  scm_type : String
deriving DecidableEq

/-- A `ProjectUpdate` record with the snapshot of its parent project. -/
structure ProjectUpdateRec where
  id : Nat
  status : String
  created : Int
  project : ProjectRec
deriving DecidableEq

/-- The fields of a parent `InventorySource` that
`cleanup_inventory_updates` reads. -/
structure InventorySourceRec where
  current_update : Option Nat
  last_update : Option Nat
  source : String
deriving DecidableEq

/-- An `InventoryUpdate` record with the snapshot of its parent
inventory source. -/
structure InventoryUpdateRec where
  id : Nat
  status : String
  created : Int
  inventory_source : InventorySourceRec
deriving DecidableEq

/-- Decision taken by `cleanup_jobs` (lines 72-85) on one job.  The
bodies of `cleanup_ad_hoc_commands` (94-107), `cleanup_management_jobs`
(162-175) and `cleanup_workflow_jobs` (194-207) are identical. -/
def classify_job (cutoff : Int) (r : SimpleRec) : Decision :=
  if r.status ∈ nonTerminalStatuses then Decision.SkipActive
  else if r.created ≥ cutoff then Decision.SkipRecent
  else Decision.Eligible

/-- Decision taken by `cleanup_notifications` (lines 216-229): only
`('pending',)` forces a skip. -/
def classify_notification (cutoff : Int) (r : SimpleRec) : Decision :=
  if r.status ∈ ["pending"] then Decision.SkipActive
  else if r.created ≥ cutoff then Decision.SkipRecent
  else Decision.Eligible

/-- Line 118: `pu in (pu.project.current_update, pu.project.last_update)
and pu.project.scm_type`.  Tuple membership is object (primary key)
equality against two possibly-NULL pointers, and the `scm_type` char
field is truthy iff non-empty. -/
def project_update_protected (pu : ProjectUpdateRec) : Bool :=
  (pu.project.current_update == some pu.id ||
    pu.project.last_update == some pu.id) &&
  pu.project.scm_type != ""

/-- Decision taken by `cleanup_project_updates` (lines 114-131). -/
def classify_project_update (cutoff : Int) (pu : ProjectUpdateRec) : Decision :=
  if pu.status ∈ nonTerminalStatuses then Decision.SkipActive
  else if project_update_protected pu then Decision.SkipProtected
  else if pu.created ≥ cutoff then Decision.SkipRecent
  else Decision.Eligible

/-- Line 142: `iu in (iu.inventory_source.current_update,
iu.inventory_source.last_update) and iu.inventory_source.source`. -/
def inventory_update_protected (iu : InventoryUpdateRec) : Bool :=
  (iu.inventory_source.current_update == some iu.id ||
    iu.inventory_source.last_update == some iu.id) &&
  iu.inventory_source.source != ""

/-- Decision taken by `cleanup_inventory_updates` (lines 138-155). -/
def classify_inventory_update (cutoff : Int) (iu : InventoryUpdateRec) : Decision :=
  if iu.status ∈ nonTerminalStatuses then Decision.SkipActive
  else if inventory_update_protected iu then Decision.SkipProtected
  else if iu.created ≥ cutoff then Decision.SkipRecent
  else Decision.Eligible

/-- `true` exactly on the fall-through (deletion) branch. -/
def Decision.isEligible : Decision → Bool
  | Decision.Eligible => true
  | _ => false

/-- One `cleanup_*` loop: walk the records in order, count a skip for
each of the three skip branches, count a delete on the fall-through
branch, and (unless `dry` is set) remove the deleted record from the
table.  Returns `(skipped, deleted, remaining records)`. -/
def cleanupList (classify : α → Decision) (dry : Bool) : List α → Nat × Nat × List α
  | [] => (0, 0, [])
  | r :: rest =>
    let p := cleanupList classify dry rest
    match classify r with
    | Decision.Eligible => (p.1, p.2.1 + 1, if dry then r :: p.2.2 else p.2.2)
    | Decision.SkipActive => (p.1 + 1, p.2.1, r :: p.2.2)
    | Decision.SkipProtected => (p.1 + 1, p.2.1, r :: p.2.2)
    | Decision.SkipRecent => (p.1 + 1, p.2.1, r :: p.2.2)

/-- `Command.cleanup_jobs` (lines 64-86). -/
def cleanup_jobs (dry : Bool) (cutoff : Int) (rs : List SimpleRec) : Nat × Nat × List SimpleRec :=
  cleanupList (classify_job cutoff) dry rs

/-- `Command.cleanup_ad_hoc_commands` (lines 88-108); its branch
structure is identical to `cleanup_jobs`. -/
def cleanup_ad_hoc_commands (dry : Bool) (cutoff : Int) (rs : List SimpleRec) : Nat × Nat × List SimpleRec :=
  cleanupList (classify_job cutoff) dry rs

/-- `Command.cleanup_project_updates` (lines 110-132). -/
def cleanup_project_updates (dry : Bool) (cutoff : Int) (rs : List ProjectUpdateRec) : Nat × Nat × List ProjectUpdateRec :=
  cleanupList (classify_project_update cutoff) dry rs

/-- `Command.cleanup_inventory_updates` (lines 134-156). -/
def cleanup_inventory_updates (dry : Bool) (cutoff : Int) (rs : List InventoryUpdateRec) : Nat × Nat × List InventoryUpdateRec :=
  cleanupList (classify_inventory_update cutoff) dry rs

/-- `Command.cleanup_management_jobs` (lines 158-176), identical branch
structure to `cleanup_jobs` (the records are `SystemJob`s). -/
def cleanup_management_jobs (dry : Bool) (cutoff : Int) (rs : List SimpleRec) : Nat × Nat × List SimpleRec :=
  cleanupList (classify_job cutoff) dry rs

/-- `Command.cleanup_workflow_jobs` (lines 188-208), identical branch
structure to `cleanup_jobs`. -/
def cleanup_workflow_jobs (dry : Bool) (cutoff : Int) (rs : List SimpleRec) : Nat × Nat × List SimpleRec :=
  cleanupList (classify_job cutoff) dry rs

/-- `Command.cleanup_notifications` (lines 210-230). -/
def cleanup_notifications (dry : Bool) (cutoff : Int) (rs : List SimpleRec) : Nat × Nat × List SimpleRec :=
  cleanupList (classify_notification cutoff) dry rs

/-- The options `handle_noargs` reads: `--days` (default 90),
`--dry-run`, and the seven `only_*` category flags. -/
structure Options where
  days : Int
  dry_run : Bool
  only_jobs : Bool
  only_ad_hoc_commands : Bool
  only_project_updates : Bool
  only_inventory_updates : Bool
  only_management_jobs : Bool
  only_workflow_jobs : Bool
  only_notifications : Bool
deriving DecidableEq

/-- The `model_names` tuple of lines 242-243, in source order. -/
def model_names : List String :=
  ["jobs", "ad_hoc_commands", "project_updates", "inventory_updates",
   "management_jobs", "workflow_jobs", "notifications"]

/-- `options.get('only_%s' % m, False)` of line 246. -/
def optFlag (o : Options) : String → Bool
  | "jobs" => o.only_jobs
  | "ad_hoc_commands" => o.only_ad_hoc_commands
  | "project_updates" => o.only_project_updates
  | "inventory_updates" => o.only_inventory_updates
  | "management_jobs" => o.only_management_jobs
  | "workflow_jobs" => o.only_workflow_jobs
  | "notifications" => o.only_notifications
  | _ => false

/-- Lines 244-249: the set of categories to clean is the set of flagged
names, or every name when no flag is set.  Represented as the sublist of
`model_names` it contains. -/
def models_to_cleanup (o : Options) : List String :=
  let chosen := model_names.filter (optFlag o)
  if chosen.isEmpty then model_names else chosen

/-- Day ordinal of `datetime.datetime.min` (0001-01-01). -/
def datetime_min_ordinal : Int := 1

/-- Day ordinal of `datetime.datetime.max` (9999-12-31). -/
def datetime_max_ordinal : Int := 3652059

/-- The `CommandError` message of line 241. -/
def daysTooLargeMsg : String :=
  "--days specified is too large. Try something less than 99999 (about 270 years)."

/-- Lines 238-241: `self.cutoff = now() - datetime.timedelta(days=self.days)`,
with the `OverflowError` (the result leaving the representable datetime
range) caught and re-raised as a `CommandError`.  `nowv` is the current
time as a day ordinal, necessarily inside the representable range. -/
def computeCutoff (nowv : Int) (days : Int) : Except String Int :=
  let c := nowv - days
  if c < datetime_min_ordinal ∨ datetime_max_ordinal < c then
    Except.error daysTooLargeMsg
  else
    Except.ok c

/-- One per-category summary line of lines 254-257: the category name
and its `(deleted, skipped)` totals. -/
structure Summary where
  category : String
  deleted : Nat
  skipped : Nat
deriving DecidableEq

/-- The store snapshot: one table per category. -/
structure Store where
  jobs : List SimpleRec
  ad_hoc_commands : List SimpleRec
  project_updates : List ProjectUpdateRec
  inventory_updates : List InventoryUpdateRec
  management_jobs : List SimpleRec
  workflow_jobs : List SimpleRec
  notifications : List SimpleRec
deriving DecidableEq

/-- Lines 251-257 for one category: when the category is selected, run
its `cleanup_*` result `res = (skipped, deleted, remaining)` into one
summary and the updated table; otherwise leave the table untouched and
emit nothing. -/
def runCat (name : String) (selectedActive : Bool) (res : Nat × Nat × List α)
    (orig : List α) : List Summary × List α :=
  if selectedActive then ([Summary.mk name res.2.1 res.1], res.2.2)
  else ([], orig)

/-- `Command.handle_noargs` (lines 232-257): compute the cutoff (a
`CommandError` aborts before any table is read), resolve the category
selection, then run the selected categories in `model_names` order.
Each `cleanup_*` method touches only its own table, so the store is
threaded per-field.  Returns the summary lines in emission order and
the resulting store. -/
def handle_noargs (opts : Options) (nowv : Int) (st : Store) :
    Except String (List Summary × Store) :=
  match computeCutoff nowv opts.days with
  | Except.error e => Except.error e
  | Except.ok cutoff =>
    let sel := models_to_cleanup opts
    let dry := opts.dry_run
    let oJ := runCat "jobs" (sel.contains "jobs")
      (cleanup_jobs dry cutoff st.jobs) st.jobs
    let oA := runCat "ad_hoc_commands" (sel.contains "ad_hoc_commands")
      (cleanup_ad_hoc_commands dry cutoff st.ad_hoc_commands) st.ad_hoc_commands
    let oP := runCat "project_updates" (sel.contains "project_updates")
      (cleanup_project_updates dry cutoff st.project_updates) st.project_updates
    let oI := runCat "inventory_updates" (sel.contains "inventory_updates")
      (cleanup_inventory_updates dry cutoff st.inventory_updates) st.inventory_updates
    let oM := runCat "management_jobs" (sel.contains "management_jobs")
      (cleanup_management_jobs dry cutoff st.management_jobs) st.management_jobs
    let oW := runCat "workflow_jobs" (sel.contains "workflow_jobs")
      (cleanup_workflow_jobs dry cutoff st.workflow_jobs) st.workflow_jobs
    let oN := runCat "notifications" (sel.contains "notifications")
      (cleanup_notifications dry cutoff st.notifications) st.notifications
    Except.ok
      (oJ.1 ++ oA.1 ++ oP.1 ++ oI.1 ++ oM.1 ++ oW.1 ++ oN.1,
       Store.mk oJ.2 oA.2 oP.2 oI.2 oM.2 oW.2 oN.2)

/-! ### Helper lemmas about the cleanup loop -/

/-- Closed form of one cleanup loop: the skipped counter is the number
of records whose decision is a skip, the deleted counter the number of
eligible records, and the remaining table drops exactly the eligible
records (none in dry-run mode). -/
theorem cleanupList_eq (c : α → Decision) (dry : Bool) (rs : List α) :
    cleanupList c dry rs =
      ((rs.filter fun r => !(c r).isEligible).length,
       (rs.filter fun r => (c r).isEligible).length,
       if dry then rs else rs.filter fun r => !(c r).isEligible) := by
  induction rs with
  | nil => cases dry <;> simp [cleanupList]
  | cons r rest ih =>
    cases h : c r <;>
      simp [cleanupList, ih, h, Decision.isEligible, List.filter_cons] <;>
      cases dry <;> simp

theorem cleanupList_skipped (c : α → Decision) (dry : Bool) (rs : List α) :
    (cleanupList c dry rs).1 = (rs.filter fun r => !(c r).isEligible).length := by
  rw [cleanupList_eq]

theorem cleanupList_deleted (c : α → Decision) (dry : Bool) (rs : List α) :
    (cleanupList c dry rs).2.1 = (rs.filter fun r => (c r).isEligible).length := by
  rw [cleanupList_eq]

theorem cleanupList_remaining_dry (c : α → Decision) (rs : List α) :
    (cleanupList c true rs).2.2 = rs := by
  rw [cleanupList_eq]; rfl

theorem cleanupList_remaining (c : α → Decision) (rs : List α) :
    (cleanupList c false rs).2.2 = rs.filter fun r => !(c r).isEligible := by
  rw [cleanupList_eq]; rfl

/-- A record whose decision is one of the three skips is still present
after the cleanup loop, dry-run or not. -/
theorem cleanupList_mem_remaining (c : α → Decision) (dry : Bool) (rs : List α)
    (r : α) (hr : r ∈ rs) (h : (c r).isEligible = false) :
    r ∈ (cleanupList c dry rs).2.2 := by
  rw [cleanupList_eq]
  cases dry with
  | true => simpa using hr
  | false =>
    simp only []
    exact List.mem_filter.mpr ⟨hr, by simp [h]⟩

/-- An eligible record is gone from the table after a non-dry-run
cleanup loop. -/
theorem cleanupList_not_mem_remaining (c : α → Decision) (rs : List α)
    (r : α) (h : (c r).isEligible = true) :
    r ∉ (cleanupList c false rs).2.2 := by
  rw [cleanupList_remaining]
  intro hmem
  have := (List.mem_filter.mp hmem).2
  simp [h] at this

theorem length_filter_not_add_length_filter (p : α → Bool) (l : List α) :
    (l.filter fun a => !(p a)).length + (l.filter p).length = l.length := by
  induction l with
  | nil => rfl
  | cons a l ih =>
    cases h : p a <;> simp [List.filter_cons, h] <;> omega

/-- Every record is counted exactly once per loop. -/
theorem cleanupList_counts (c : α → Decision) (dry : Bool) (rs : List α) :
    (cleanupList c dry rs).1 + (cleanupList c dry rs).2.1 = rs.length := by
  rw [cleanupList_skipped, cleanupList_deleted]
  exact length_filter_not_add_length_filter _ rs

theorem filter_filter_self (p : α → Bool) (rs : List α) :
    (rs.filter p).filter p = rs.filter p := by
  induction rs with
  | nil => rfl
  | cons r rest ih => cases h : p r <;> simp [List.filter_cons, h, ih]

theorem filter_of_filter_not (p : α → Bool) (rs : List α) :
    (rs.filter fun r => !(p r)).filter p = [] := by
  induction rs with
  | nil => rfl
  | cons r rest ih => cases h : p r <;> simp [List.filter_cons, h, ih]

/-- Re-running a non-dry-run cleanup loop on the surviving records
reproduces the skipped count, deletes nothing and leaves the table
unchanged. -/
theorem cleanupList_twice (c : α → Decision) (rs : List α) :
    cleanupList c false ((cleanupList c false rs).2.2) =
      ((cleanupList c false rs).1, 0, (cleanupList c false rs).2.2) := by
  rw [cleanupList_remaining, cleanupList_eq, cleanupList_skipped,
    filter_filter_self, filter_of_filter_not]
  rfl

/-! ### Helper lemmas about the orchestrator -/

theorem runCat_map_category (name : String) (a : Bool) (res : Nat × Nat × List α)
    (orig : List α) :
    (runCat name a res orig).1.map Summary.category = if a then [name] else [] := by
  cases a <;> rfl

/-- Explicit form of a successful run. -/
theorem handle_noargs_ok (opts : Options) (nowv : Int) (st : Store) (cutoff : Int)
    (hc : computeCutoff nowv opts.days = Except.ok cutoff) :
    handle_noargs opts nowv st =
      Except.ok
        ((runCat "jobs" ((models_to_cleanup opts).contains "jobs")
            (cleanup_jobs opts.dry_run cutoff st.jobs) st.jobs).1 ++
         (runCat "ad_hoc_commands" ((models_to_cleanup opts).contains "ad_hoc_commands")
            (cleanup_ad_hoc_commands opts.dry_run cutoff st.ad_hoc_commands) st.ad_hoc_commands).1 ++
         (runCat "project_updates" ((models_to_cleanup opts).contains "project_updates")
            (cleanup_project_updates opts.dry_run cutoff st.project_updates) st.project_updates).1 ++
         (runCat "inventory_updates" ((models_to_cleanup opts).contains "inventory_updates")
            (cleanup_inventory_updates opts.dry_run cutoff st.inventory_updates) st.inventory_updates).1 ++
         (runCat "management_jobs" ((models_to_cleanup opts).contains "management_jobs")
            (cleanup_management_jobs opts.dry_run cutoff st.management_jobs) st.management_jobs).1 ++
         (runCat "workflow_jobs" ((models_to_cleanup opts).contains "workflow_jobs")
            (cleanup_workflow_jobs opts.dry_run cutoff st.workflow_jobs) st.workflow_jobs).1 ++
         (runCat "notifications" ((models_to_cleanup opts).contains "notifications")
            (cleanup_notifications opts.dry_run cutoff st.notifications) st.notifications).1,
         Store.mk
           (runCat "jobs" ((models_to_cleanup opts).contains "jobs")
             (cleanup_jobs opts.dry_run cutoff st.jobs) st.jobs).2
           (runCat "ad_hoc_commands" ((models_to_cleanup opts).contains "ad_hoc_commands")
             (cleanup_ad_hoc_commands opts.dry_run cutoff st.ad_hoc_commands) st.ad_hoc_commands).2
           (runCat "project_updates" ((models_to_cleanup opts).contains "project_updates")
             (cleanup_project_updates opts.dry_run cutoff st.project_updates) st.project_updates).2
           (runCat "inventory_updates" ((models_to_cleanup opts).contains "inventory_updates")
             (cleanup_inventory_updates opts.dry_run cutoff st.inventory_updates) st.inventory_updates).2
           (runCat "management_jobs" ((models_to_cleanup opts).contains "management_jobs")
             (cleanup_management_jobs opts.dry_run cutoff st.management_jobs) st.management_jobs).2
           (runCat "workflow_jobs" ((models_to_cleanup opts).contains "workflow_jobs")
             (cleanup_workflow_jobs opts.dry_run cutoff st.workflow_jobs) st.workflow_jobs).2
           (runCat "notifications" ((models_to_cleanup opts).contains "notifications")
             (cleanup_notifications opts.dry_run cutoff st.notifications) st.notifications).2) := by
  unfold handle_noargs
  rw [hc]

/-- A failing cutoff computation aborts the whole run with the same
error, whatever the store holds. -/
theorem handle_noargs_error (opts : Options) (nowv : Int) (st : Store) (e : String)
    (hc : computeCutoff nowv opts.days = Except.error e) :
    handle_noargs opts nowv st = Except.error e := by
  unfold handle_noargs
  rw [hc]

/-! ### Helper lemmas about the category selection -/

theorem filter_contains_filter (q : String → Bool) (l : List String) :
    l.filter (fun n => (l.filter q).contains n) = l.filter q := by
  apply List.filter_congr
  intro a ha
  cases hq : q a <;> simp [List.mem_filter, ha, hq]

/-- The selection is always the sublist of `model_names` whose members
it contains. -/
theorem models_to_cleanup_eq_filter_contains (o : Options) :
    model_names.filter (fun n => (models_to_cleanup o).contains n) =
      models_to_cleanup o := by
  unfold models_to_cleanup
  cases he : (model_names.filter (optFlag o)).isEmpty with
  | true =>
    simp only [he, if_pos]
    rfl
  | false =>
    simp only [he]
    exact filter_contains_filter (optFlag o) model_names

/-- The seven-fold append of conditional singleton summaries produced
by a successful run, as a filter of `model_names`. -/
theorem append_ite_singletons_eq_filter (p : String → Bool) :
    (if p "jobs" then ["jobs"] else []) ++
    (if p "ad_hoc_commands" then ["ad_hoc_commands"] else []) ++
    (if p "project_updates" then ["project_updates"] else []) ++
    (if p "inventory_updates" then ["inventory_updates"] else []) ++
    (if p "management_jobs" then ["management_jobs"] else []) ++
    (if p "workflow_jobs" then ["workflow_jobs"] else []) ++
    (if p "notifications" then ["notifications"] else []) =
      model_names.filter p := by
  cases h1 : p "jobs" <;> cases h2 : p "ad_hoc_commands" <;> cases h3 : p "project_updates" <;>
    cases h4 : p "inventory_updates" <;> cases h5 : p "management_jobs" <;>
    cases h6 : p "workflow_jobs" <;> cases h7 : p "notifications" <;>
    simp [model_names, List.filter_cons, h1, h2, h3, h4, h5, h6, h7]

theorem runCat_fst_dry (name : String) (a : Bool) (c : α → Decision) (rs : List α) :
    (runCat name a (cleanupList c true rs) rs).1 =
      (runCat name a (cleanupList c false rs) rs).1 := by
  cases a <;> simp [runCat, cleanupList_skipped, cleanupList_deleted]

theorem runCat_snd_dry (name : String) (a : Bool) (c : α → Decision) (rs : List α) :
    (runCat name a (cleanupList c true rs) rs).2 = rs := by
  cases a <;> simp [runCat, cleanupList_remaining_dry]

/-- Running one category's step a second time (non-dry-run) on its own
output: the table is unchanged, nothing is deleted, and the reported
skipped counts repeat the first run's. -/
theorem runCat_second_run (name : String) (a : Bool) (c : α → Decision) (orig : List α) :
    (runCat name a
        (cleanupList c false ((runCat name a (cleanupList c false orig) orig).2))
        ((runCat name a (cleanupList c false orig) orig).2)).2 =
      (runCat name a (cleanupList c false orig) orig).2 ∧
    (∀ e ∈ (runCat name a
        (cleanupList c false ((runCat name a (cleanupList c false orig) orig).2))
        ((runCat name a (cleanupList c false orig) orig).2)).1, e.deleted = 0) ∧
    (runCat name a
        (cleanupList c false ((runCat name a (cleanupList c false orig) orig).2))
        ((runCat name a (cleanupList c false orig) orig).2)).1.map Summary.skipped =
      (runCat name a (cleanupList c false orig) orig).1.map Summary.skipped := by
  cases a with
  | false => simp [runCat]
  | true => simp [runCat, cleanupList_twice]

/-! ### Claims -/

/-- C1: a record of any of the six work-execution categories (Job,
AdHocCommand, ProjectUpdate, InventoryUpdate, ManagementJob,
WorkflowJob) whose status is `pending`, `waiting` or `running` is
classified `SkipActive`, and it survives its cleanup loop whatever its
age, its protected-pointer situation and the dry-run flag. -/
theorem C1_nonterminal_status_always_skipped (cutoff : Int) :
    (∀ r : SimpleRec, r.status ∈ nonTerminalStatuses →
        classify_job cutoff r = Decision.SkipActive) ∧
    (∀ pu : ProjectUpdateRec, pu.status ∈ nonTerminalStatuses →
        classify_project_update cutoff pu = Decision.SkipActive) ∧
    (∀ iu : InventoryUpdateRec, iu.status ∈ nonTerminalStatuses →
        classify_inventory_update cutoff iu = Decision.SkipActive) ∧
    (∀ (dry : Bool) (rs : List SimpleRec) (r : SimpleRec),
        r ∈ rs → r.status ∈ nonTerminalStatuses →
        r ∈ (cleanup_jobs dry cutoff rs).2.2 ∧
        r ∈ (cleanup_ad_hoc_commands dry cutoff rs).2.2 ∧
        r ∈ (cleanup_management_jobs dry cutoff rs).2.2 ∧
        r ∈ (cleanup_workflow_jobs dry cutoff rs).2.2) ∧
    (∀ (dry : Bool) (rs : List ProjectUpdateRec) (pu : ProjectUpdateRec),
        pu ∈ rs → pu.status ∈ nonTerminalStatuses →
        pu ∈ (cleanup_project_updates dry cutoff rs).2.2) ∧
    (∀ (dry : Bool) (rs : List InventoryUpdateRec) (iu : InventoryUpdateRec),
        iu ∈ rs → iu.status ∈ nonTerminalStatuses →
        iu ∈ (cleanup_inventory_updates dry cutoff rs).2.2) := by
  have hj : ∀ r : SimpleRec, r.status ∈ nonTerminalStatuses →
      classify_job cutoff r = Decision.SkipActive := by
    intro r h
    unfold classify_job
    rw [if_pos h]
  have hp : ∀ pu : ProjectUpdateRec, pu.status ∈ nonTerminalStatuses →
      classify_project_update cutoff pu = Decision.SkipActive := by
    intro pu h
    unfold classify_project_update
    rw [if_pos h]
  have hi : ∀ iu : InventoryUpdateRec, iu.status ∈ nonTerminalStatuses →
      classify_inventory_update cutoff iu = Decision.SkipActive := by
    intro iu h
    unfold classify_inventory_update
    rw [if_pos h]
  refine ⟨hj, hp, hi, ?_, ?_, ?_⟩
  · intro dry rs r hr h
    refine ⟨?_, ?_, ?_, ?_⟩ <;>
      exact cleanupList_mem_remaining _ dry rs r hr (by rw [hj r h]; rfl)
  · intro dry rs pu hr h
    exact cleanupList_mem_remaining _ dry rs pu hr (by rw [hp pu h]; rfl)
  · intro dry rs iu hr h
    exact cleanupList_mem_remaining _ dry rs iu hr (by rw [hi iu h]; rfl)

/-- Witness for C1: a 1000-day-old running job is classified
`SkipActive` and survives a non-dry-run cleanup. -/
theorem C1_witness :
    "running" ∈ nonTerminalStatuses ∧
    classify_job 1000 (SimpleRec.mk "running" 0) = Decision.SkipActive ∧
    SimpleRec.mk "running" 0 ∈
      (cleanup_jobs false 1000 [SimpleRec.mk "running" 0]).2.2 := by
  refine ⟨by decide, (C1_nonterminal_status_always_skipped 1000).1 _ (by decide), ?_⟩
  exact ((C1_nonterminal_status_always_skipped 1000).2.2.2.1 false
    [SimpleRec.mk "running" 0] (SimpleRec.mk "running" 0) (by decide) (by decide)).1

/-- C2: a `ProjectUpdate` (resp. `InventoryUpdate`) out of the
non-terminal statuses that equals its parent's current- or last-update
pointer while the parent has a non-empty source type is classified
`SkipProtected` and survives its cleanup loop whatever its age; the
status check still takes precedence (a non-terminal protected record is
`SkipActive`). -/
theorem C2_protected_pointer_skipped (cutoff : Int) :
    (∀ pu : ProjectUpdateRec, pu.status ∉ nonTerminalStatuses →
        (pu.project.current_update = some pu.id ∨
          pu.project.last_update = some pu.id) →
        pu.project.scm_type ≠ "" →
        classify_project_update cutoff pu = Decision.SkipProtected) ∧
    (∀ iu : InventoryUpdateRec, iu.status ∉ nonTerminalStatuses →
        (iu.inventory_source.current_update = some iu.id ∨
          iu.inventory_source.last_update = some iu.id) →
        iu.inventory_source.source ≠ "" →
        classify_inventory_update cutoff iu = Decision.SkipProtected) ∧
    (∀ pu : ProjectUpdateRec, pu.status ∈ nonTerminalStatuses →
        classify_project_update cutoff pu = Decision.SkipActive) ∧
    (∀ iu : InventoryUpdateRec, iu.status ∈ nonTerminalStatuses →
        classify_inventory_update cutoff iu = Decision.SkipActive) ∧
    (∀ (dry : Bool) (rs : List ProjectUpdateRec) (pu : ProjectUpdateRec),
        pu ∈ rs → pu.status ∉ nonTerminalStatuses →
        (pu.project.current_update = some pu.id ∨
          pu.project.last_update = some pu.id) →
        pu.project.scm_type ≠ "" →
        pu ∈ (cleanup_project_updates dry cutoff rs).2.2) ∧
    (∀ (dry : Bool) (rs : List InventoryUpdateRec) (iu : InventoryUpdateRec),
        iu ∈ rs → iu.status ∉ nonTerminalStatuses →
        (iu.inventory_source.current_update = some iu.id ∨
          iu.inventory_source.last_update = some iu.id) →
        iu.inventory_source.source ≠ "" →
        iu ∈ (cleanup_inventory_updates dry cutoff rs).2.2) := by
  have hbp : ∀ pu : ProjectUpdateRec,
      (pu.project.current_update = some pu.id ∨
        pu.project.last_update = some pu.id) →
      pu.project.scm_type ≠ "" → project_update_protected pu = true := by
    intro pu hptr hscm
    unfold project_update_protected
    rcases hptr with h | h <;> simp [h, hscm]
  have hbi : ∀ iu : InventoryUpdateRec,
      (iu.inventory_source.current_update = some iu.id ∨
        iu.inventory_source.last_update = some iu.id) →
      iu.inventory_source.source ≠ "" → inventory_update_protected iu = true := by
    intro iu hptr hsrc
    unfold inventory_update_protected
    rcases hptr with h | h <;> simp [h, hsrc]
  have hp : ∀ pu : ProjectUpdateRec, pu.status ∉ nonTerminalStatuses →
      (pu.project.current_update = some pu.id ∨
        pu.project.last_update = some pu.id) →
      pu.project.scm_type ≠ "" →
      classify_project_update cutoff pu = Decision.SkipProtected := by
    intro pu hs hptr hscm
    unfold classify_project_update
    rw [if_neg hs, if_pos (hbp pu hptr hscm)]
  have hi : ∀ iu : InventoryUpdateRec, iu.status ∉ nonTerminalStatuses →
      (iu.inventory_source.current_update = some iu.id ∨
        iu.inventory_source.last_update = some iu.id) →
      iu.inventory_source.source ≠ "" →
      classify_inventory_update cutoff iu = Decision.SkipProtected := by
    intro iu hs hptr hsrc
    unfold classify_inventory_update
    rw [if_neg hs, if_pos (hbi iu hptr hsrc)]
  refine ⟨hp, hi, ?_, ?_, ?_, ?_⟩
  · intro pu h
    unfold classify_project_update
    rw [if_pos h]
  · intro iu h
    unfold classify_inventory_update
    rw [if_pos h]
  · intro dry rs pu hr hs hptr hscm
    exact cleanupList_mem_remaining _ dry rs pu hr (by rw [hp pu hs hptr hscm]; rfl)
  · intro dry rs iu hr hs hptr hsrc
    exact cleanupList_mem_remaining _ dry rs iu hr (by rw [hi iu hs hptr hsrc]; rfl)

/-- Witness for C2: a 500-day-old successful project update that is its
project's current update with scm type `git` is classified
`SkipProtected` and survives. -/
theorem C2_witness :
    classify_project_update 500
      (ProjectUpdateRec.mk 7 "successful" 0 (ProjectRec.mk (some 7) none "git")) =
      Decision.SkipProtected ∧
    ProjectUpdateRec.mk 7 "successful" 0 (ProjectRec.mk (some 7) none "git") ∈
      (cleanup_project_updates false 500
        [ProjectUpdateRec.mk 7 "successful" 0 (ProjectRec.mk (some 7) none "git")]).2.2 := by
  refine ⟨(C2_protected_pointer_skipped 500).1 _ (by decide) (Or.inl rfl) (by decide), ?_⟩
  exact (C2_protected_pointer_skipped 500).2.2.2.2.1 false _ _ (by decide) (by decide)
    (Or.inl rfl) (by decide)

/-- C3: once the status check (and, for updates, the protected-pointer
check) lets a record through, it is classified `SkipRecent` exactly
when `created >= cutoff` — the boundary `created = cutoff` is skipped —
and `Eligible` exactly when `created < cutoff`; moreover a record with
`created >= cutoff` survives every cleanup loop. -/
theorem C3_age_cutoff_boundary (cutoff : Int) :
    (∀ r : SimpleRec, r.status ∉ nonTerminalStatuses →
        (cutoff ≤ r.created → classify_job cutoff r = Decision.SkipRecent) ∧
        (classify_job cutoff r = Decision.Eligible ↔ r.created < cutoff)) ∧
    (∀ r : SimpleRec, r.status ∉ ["pending"] →
        (cutoff ≤ r.created → classify_notification cutoff r = Decision.SkipRecent) ∧
        (classify_notification cutoff r = Decision.Eligible ↔ r.created < cutoff)) ∧
    (∀ pu : ProjectUpdateRec, pu.status ∉ nonTerminalStatuses →
        project_update_protected pu = false →
        (cutoff ≤ pu.created → classify_project_update cutoff pu = Decision.SkipRecent) ∧
        (classify_project_update cutoff pu = Decision.Eligible ↔ pu.created < cutoff)) ∧
    (∀ iu : InventoryUpdateRec, iu.status ∉ nonTerminalStatuses →
        inventory_update_protected iu = false →
        (cutoff ≤ iu.created → classify_inventory_update cutoff iu = Decision.SkipRecent) ∧
        (classify_inventory_update cutoff iu = Decision.Eligible ↔ iu.created < cutoff)) ∧
    (∀ (dry : Bool) (rs : List SimpleRec) (r : SimpleRec),
        r ∈ rs → cutoff ≤ r.created →
        r ∈ (cleanup_jobs dry cutoff rs).2.2 ∧
        r ∈ (cleanup_ad_hoc_commands dry cutoff rs).2.2 ∧
        r ∈ (cleanup_management_jobs dry cutoff rs).2.2 ∧
        r ∈ (cleanup_workflow_jobs dry cutoff rs).2.2 ∧
        r ∈ (cleanup_notifications dry cutoff rs).2.2) ∧
    (∀ (dry : Bool) (rs : List ProjectUpdateRec) (pu : ProjectUpdateRec),
        pu ∈ rs → cutoff ≤ pu.created →
        pu ∈ (cleanup_project_updates dry cutoff rs).2.2) ∧
    (∀ (dry : Bool) (rs : List InventoryUpdateRec) (iu : InventoryUpdateRec),
        iu ∈ rs → cutoff ≤ iu.created →
        iu ∈ (cleanup_inventory_updates dry cutoff rs).2.2) := by
  have hJ : ∀ r : SimpleRec, r.status ∉ nonTerminalStatuses →
      (cutoff ≤ r.created → classify_job cutoff r = Decision.SkipRecent) ∧
      (classify_job cutoff r = Decision.Eligible ↔ r.created < cutoff) := by
    intro r hs
    unfold classify_job
    rw [if_neg hs]
    by_cases hc : r.created ≥ cutoff
    · rw [if_pos hc]
      constructor
      · intro _; rfl
      · simp
        omega
    · rw [if_neg hc]
      constructor
      · intro h; exact absurd h hc
      · simp
        omega
  have hN : ∀ r : SimpleRec, r.status ∉ ["pending"] →
      (cutoff ≤ r.created → classify_notification cutoff r = Decision.SkipRecent) ∧
      (classify_notification cutoff r = Decision.Eligible ↔ r.created < cutoff) := by
    intro r hs
    unfold classify_notification
    rw [if_neg hs]
    by_cases hc : r.created ≥ cutoff
    · rw [if_pos hc]
      exact ⟨fun _ => rfl, by simp; omega⟩
    · rw [if_neg hc]
      exact ⟨fun h => absurd h hc, by simp; omega⟩
  have hP : ∀ pu : ProjectUpdateRec, pu.status ∉ nonTerminalStatuses →
      project_update_protected pu = false →
      (cutoff ≤ pu.created → classify_project_update cutoff pu = Decision.SkipRecent) ∧
      (classify_project_update cutoff pu = Decision.Eligible ↔ pu.created < cutoff) := by
    intro pu hs hb
    unfold classify_project_update
    rw [if_neg hs, if_neg (by simp [hb])]
    by_cases hc : pu.created ≥ cutoff
    · rw [if_pos hc]
      exact ⟨fun _ => rfl, by simp; omega⟩
    · rw [if_neg hc]
      exact ⟨fun h => absurd h hc, by simp; omega⟩
  have hI : ∀ iu : InventoryUpdateRec, iu.status ∉ nonTerminalStatuses →
      inventory_update_protected iu = false →
      (cutoff ≤ iu.created → classify_inventory_update cutoff iu = Decision.SkipRecent) ∧
      (classify_inventory_update cutoff iu = Decision.Eligible ↔ iu.created < cutoff) := by
    intro iu hs hb
    unfold classify_inventory_update
    rw [if_neg hs, if_neg (by simp [hb])]
    by_cases hc : iu.created ≥ cutoff
    · rw [if_pos hc]
      exact ⟨fun _ => rfl, by simp; omega⟩
    · rw [if_neg hc]
      exact ⟨fun h => absurd h hc, by simp; omega⟩
  have keyJ : ∀ r : SimpleRec, cutoff ≤ r.created →
      (classify_job cutoff r).isEligible = false := by
    intro r h
    unfold classify_job
    by_cases hs : r.status ∈ nonTerminalStatuses
    · rw [if_pos hs]; rfl
    · rw [if_neg hs, if_pos h]; rfl
  have keyN : ∀ r : SimpleRec, cutoff ≤ r.created →
      (classify_notification cutoff r).isEligible = false := by
    intro r h
    unfold classify_notification
    by_cases hs : r.status ∈ ["pending"]
    · rw [if_pos hs]; rfl
    · rw [if_neg hs, if_pos h]; rfl
  have keyP : ∀ pu : ProjectUpdateRec, cutoff ≤ pu.created →
      (classify_project_update cutoff pu).isEligible = false := by
    intro pu h
    unfold classify_project_update
    by_cases hs : pu.status ∈ nonTerminalStatuses
    · rw [if_pos hs]; rfl
    · rw [if_neg hs]
      by_cases hb : project_update_protected pu = true
      · rw [if_pos hb]; rfl
      · rw [if_neg hb, if_pos h]; rfl
  have keyI : ∀ iu : InventoryUpdateRec, cutoff ≤ iu.created →
      (classify_inventory_update cutoff iu).isEligible = false := by
    intro iu h
    unfold classify_inventory_update
    by_cases hs : iu.status ∈ nonTerminalStatuses
    · rw [if_pos hs]; rfl
    · rw [if_neg hs]
      by_cases hb : inventory_update_protected iu = true
      · rw [if_pos hb]; rfl
      · rw [if_neg hb, if_pos h]; rfl
  refine ⟨hJ, hN, hP, hI, ?_, ?_, ?_⟩
  · intro dry rs r hr hc
    refine ⟨?_, ?_, ?_, ?_, ?_⟩
    · exact cleanupList_mem_remaining _ dry rs r hr (keyJ r hc)
    · exact cleanupList_mem_remaining _ dry rs r hr (keyJ r hc)
    · exact cleanupList_mem_remaining _ dry rs r hr (keyJ r hc)
    · exact cleanupList_mem_remaining _ dry rs r hr (keyJ r hc)
    · exact cleanupList_mem_remaining _ dry rs r hr (keyN r hc)
  · intro dry rs pu hr hc
    exact cleanupList_mem_remaining _ dry rs pu hr (keyP pu hc)
  · intro dry rs iu hr hc
    exact cleanupList_mem_remaining _ dry rs iu hr (keyI iu hc)

/-- Witness for C3: with cutoff 100, a successful job created exactly
at the cutoff is `SkipRecent` and survives, one created one day earlier
is `Eligible`. -/
theorem C3_witness :
    classify_job 100 (SimpleRec.mk "successful" 100) = Decision.SkipRecent ∧
    SimpleRec.mk "successful" 100 ∈
      (cleanup_jobs false 100 [SimpleRec.mk "successful" 100]).2.2 ∧
    classify_job 100 (SimpleRec.mk "successful" 99) = Decision.Eligible := by
  refine ⟨((C3_age_cutoff_boundary 100).1 _ (by decide)).1 (by decide), ?_, ?_⟩
  · exact ((C3_age_cutoff_boundary 100).2.2.2.2.1 false _ _ (by decide) (by decide)).1
  · exact ((C3_age_cutoff_boundary 100).1 _ (by decide)).2.mpr (by decide)

/-- C5: in every cleanup loop each record is counted exactly once, so
`skipped + deleted` equals the number of records of the category. -/
theorem C5_skipped_plus_deleted_eq_total (dry : Bool) (cutoff : Int) :
    (∀ rs : List SimpleRec,
        (cleanup_jobs dry cutoff rs).1 + (cleanup_jobs dry cutoff rs).2.1 = rs.length) ∧
    (∀ rs : List SimpleRec,
        (cleanup_ad_hoc_commands dry cutoff rs).1 +
          (cleanup_ad_hoc_commands dry cutoff rs).2.1 = rs.length) ∧
    (∀ rs : List ProjectUpdateRec,
        (cleanup_project_updates dry cutoff rs).1 +
          (cleanup_project_updates dry cutoff rs).2.1 = rs.length) ∧
    (∀ rs : List InventoryUpdateRec,
        (cleanup_inventory_updates dry cutoff rs).1 +
          (cleanup_inventory_updates dry cutoff rs).2.1 = rs.length) ∧
    (∀ rs : List SimpleRec,
        (cleanup_management_jobs dry cutoff rs).1 +
          (cleanup_management_jobs dry cutoff rs).2.1 = rs.length) ∧
    (∀ rs : List SimpleRec,
        (cleanup_workflow_jobs dry cutoff rs).1 +
          (cleanup_workflow_jobs dry cutoff rs).2.1 = rs.length) ∧
    (∀ rs : List SimpleRec,
        (cleanup_notifications dry cutoff rs).1 +
          (cleanup_notifications dry cutoff rs).2.1 = rs.length) := by
  refine ⟨?_, ?_, ?_, ?_, ?_, ?_, ?_⟩ <;> intro rs <;> exact cleanupList_counts _ dry rs

/-- C8: for notifications only the status `pending` forces a
`SkipActive`; a notification in any other status — `waiting` and
`running` included — whose `created` is below the cutoff is `Eligible`
and removed by a non-dry run, unlike the six other categories. -/
theorem C8_notifications_pending_only (cutoff : Int) :
    (∀ n : SimpleRec,
        classify_notification cutoff n = Decision.SkipActive ↔ n.status = "pending") ∧
    (∀ n : SimpleRec, n.status ≠ "pending" → n.created < cutoff →
        classify_notification cutoff n = Decision.Eligible) ∧
    (∀ (rs : List SimpleRec) (n : SimpleRec),
        n.status ≠ "pending" → n.created < cutoff →
        n ∉ (cleanup_notifications false cutoff rs).2.2) ∧
    (∀ r : SimpleRec, r.status = "waiting" ∨ r.status = "running" →
        classify_job cutoff r = Decision.SkipActive ∧
        (r.created < cutoff → classify_notification cutoff r = Decision.Eligible)) := by
  have helig : ∀ n : SimpleRec, n.status ≠ "pending" → n.created < cutoff →
      classify_notification cutoff n = Decision.Eligible := by
    intro n hs hc
    unfold classify_notification
    rw [if_neg (by simpa using hs), if_neg (by omega)]
  refine ⟨?_, helig, ?_, ?_⟩
  · intro n
    constructor
    · intro h
      by_contra hs
      unfold classify_notification at h
      rw [if_neg (by simpa using hs)] at h
      by_cases hc : n.created ≥ cutoff
      · rw [if_pos hc] at h
        exact Decision.noConfusion h
      · rw [if_neg hc] at h
        exact Decision.noConfusion h
    · intro h
      unfold classify_notification
      rw [if_pos (by simp [h])]
  · intro rs n hs hc
    exact cleanupList_not_mem_remaining _ rs n (by rw [helig n hs hc]; rfl)
  · intro r hr
    constructor
    · unfold classify_job
      rw [if_pos (by rcases hr with h | h <;> simp [h, nonTerminalStatuses])]
    · intro hc
      exact helig r (by rcases hr with h | h <;> simp [h]) hc

/-- Witness for C8: a 200-day-old running notification is `Eligible`
and deleted (cutoff 100, created far in the past), while a running job
of the same age is `SkipActive`. -/
theorem C8_witness :
    classify_notification 100 (SimpleRec.mk "running" 0) = Decision.Eligible ∧
    SimpleRec.mk "running" 0 ∉
      (cleanup_notifications false 100 [SimpleRec.mk "running" 0]).2.2 ∧
    classify_job 100 (SimpleRec.mk "running" 0) = Decision.SkipActive := by
  refine ⟨(C8_notifications_pending_only 100).2.1 _ (by decide) (by decide), ?_, ?_⟩
  · exact (C8_notifications_pending_only 100).2.2.1 _ _ (by decide) (by decide)
  · exact ((C8_notifications_pending_only 100).2.2.2 _ (Or.inr rfl)).1

/-- C6: when `now - days` leaves the representable datetime range the
run fails with the `--days` configuration error before any table is
read — the outcome is the same for every store — and for representable
horizons the cutoff is exactly `now - days`. -/
theorem C6_overflow_fails_fast (opts : Options) (nowv : Int) :
    ((nowv - opts.days < datetime_min_ordinal ∨
        datetime_max_ordinal < nowv - opts.days) →
      ∀ st : Store, handle_noargs opts nowv st = Except.error daysTooLargeMsg) ∧
    (datetime_min_ordinal ≤ nowv - opts.days →
      nowv - opts.days ≤ datetime_max_ordinal →
      computeCutoff nowv opts.days = Except.ok (nowv - opts.days)) := by
  constructor
  · intro hov st
    apply handle_noargs_error
    simp only [computeCutoff]
    rw [if_pos hov]
  · intro h1 h2
    simp only [computeCutoff]
    rw [if_neg (by omega)]

/-- Witness for C6: a 999999-day horizon at time 739901 (day ordinal of
2026-10-12) underflows the datetime range and the run errors out on an
empty store. -/
theorem C6_witness :
    (739901 - (999999 : Int) < datetime_min_ordinal ∨
      datetime_max_ordinal < 739901 - (999999 : Int)) ∧
    handle_noargs
      (Options.mk 999999 false false false false false false false false) 739901
      (Store.mk [] [] [] [] [] [] []) = Except.error daysTooLargeMsg := by
  refine ⟨by decide, ?_⟩
  exact (C6_overflow_fails_fast
    (Options.mk 999999 false false false false false false false false) 739901).1
    (by decide) _

/-- Counterexample to C10 as stated: with a retention horizon of 0 days
at time 739901, no configuration error is raised and the cutoff equals
the current time, yet a successful, unprotected job created exactly at
the current instant is NOT eligible — it is skipped (boundary
`created = cutoff`) and survives the non-dry run, contradicting "every
record in a terminal status that is not protected ... is classified
eligible and deleted". -/
theorem C10_counterexample :
    (0 : Int) ≤ 0 ∧
    computeCutoff 739901 0 = Except.ok 739901 ∧
    "successful" ∉ nonTerminalStatuses ∧
    classify_job 739901 (SimpleRec.mk "successful" 739901) ≠ Decision.Eligible ∧
    cleanup_jobs false 739901 [SimpleRec.mk "successful" 739901] =
      (1, 0, [SimpleRec.mk "successful" 739901]) := by
  refine ⟨le_refl 0, rfl, by decide, by decide, rfl⟩

/-- C10 (amended): for a zero or negative `days` whose cutoff is still
representable, no configuration error is raised, the cutoff is at or
after the current time, and every record in a terminal status that is
not protected and was created strictly before the current time is
classified `Eligible` and removed by a non-dry run. -/
theorem C10_no_positivity_validation (days nowv : Int)
    (hd : days ≤ 0)
    (h1 : datetime_min_ordinal ≤ nowv - days)
    (h2 : nowv - days ≤ datetime_max_ordinal) :
    computeCutoff nowv days = Except.ok (nowv - days) ∧
    nowv ≤ nowv - days ∧
    (∀ r : SimpleRec, r.status ∉ nonTerminalStatuses → r.created < nowv →
        classify_job (nowv - days) r = Decision.Eligible) ∧
    (∀ (rs : List SimpleRec) (r : SimpleRec), r.status ∉ nonTerminalStatuses →
        r.created < nowv → r ∉ (cleanup_jobs false (nowv - days) rs).2.2) ∧
    (∀ pu : ProjectUpdateRec, pu.status ∉ nonTerminalStatuses →
        project_update_protected pu = false → pu.created < nowv →
        classify_project_update (nowv - days) pu = Decision.Eligible) ∧
    (∀ iu : InventoryUpdateRec, iu.status ∉ nonTerminalStatuses →
        inventory_update_protected iu = false → iu.created < nowv →
        classify_inventory_update (nowv - days) iu = Decision.Eligible) ∧
    (∀ n : SimpleRec, n.status ≠ "pending" → n.created < nowv →
        classify_notification (nowv - days) n = Decision.Eligible) := by
  have hj : ∀ r : SimpleRec, r.status ∉ nonTerminalStatuses → r.created < nowv →
      classify_job (nowv - days) r = Decision.Eligible := by
    intro r hs hc
    unfold classify_job
    rw [if_neg hs, if_neg (by omega)]
  refine ⟨?_, by omega, hj, ?_, ?_, ?_, ?_⟩
  · simp only [computeCutoff]
    rw [if_neg (by omega)]
  · intro rs r hs hc
    exact cleanupList_not_mem_remaining _ rs r (by rw [hj r hs hc]; rfl)
  · intro pu hs hb hc
    unfold classify_project_update
    rw [if_neg hs, if_neg (by simp [hb]), if_neg (by omega)]
  · intro iu hs hb hc
    unfold classify_inventory_update
    rw [if_neg hs, if_neg (by simp [hb]), if_neg (by omega)]
  · intro n hs hc
    unfold classify_notification
    rw [if_neg (by simpa using hs), if_neg (by omega)]

/-- Witness for C10 (amended): days = -5 at time 739901 yields cutoff
739906 with no error, and a failed job created at 739900 is eligible. -/
theorem C10_witness :
    ((-5 : Int) ≤ 0 ∧ datetime_min_ordinal ≤ 739901 - (-5 : Int) ∧
      739901 - (-5 : Int) ≤ datetime_max_ordinal) ∧
    computeCutoff 739901 (-5) = Except.ok (739901 - (-5 : Int)) ∧
    classify_job (739901 - (-5 : Int)) (SimpleRec.mk "failed" 739900) =
      Decision.Eligible := by
  refine ⟨⟨by decide, by decide, by decide⟩, ?_, ?_⟩
  · exact (C10_no_positivity_validation (-5) 739901 (by decide) (by decide) (by decide)).1
  · exact (C10_no_positivity_validation (-5) 739901 (by decide) (by decide)
      (by decide)).2.2.1 _ (by decide) (by decide)

/-- C9: a successful run reports exactly the selected categories, in
`model_names` order; the selection is all seven categories when no flag
is set and exactly the flagged ones otherwise; the table of an
unselected category is left untouched. -/
theorem C9_category_selection (opts : Options) (nowv : Int) (st : Store)
    (sums : List Summary) (st2 : Store)
    (h : handle_noargs opts nowv st = Except.ok (sums, st2)) :
    sums.map Summary.category = models_to_cleanup opts ∧
    ((∀ m ∈ model_names, optFlag opts m = false) →
      models_to_cleanup opts = model_names) ∧
    ((∃ m ∈ model_names, optFlag opts m = true) →
      models_to_cleanup opts = model_names.filter (optFlag opts)) ∧
    ((models_to_cleanup opts).contains "jobs" = false →
      st2.jobs = st.jobs) ∧
    ((models_to_cleanup opts).contains "ad_hoc_commands" = false →
      st2.ad_hoc_commands = st.ad_hoc_commands) ∧
    ((models_to_cleanup opts).contains "project_updates" = false →
      st2.project_updates = st.project_updates) ∧
    ((models_to_cleanup opts).contains "inventory_updates" = false →
      st2.inventory_updates = st.inventory_updates) ∧
    ((models_to_cleanup opts).contains "management_jobs" = false →
      st2.management_jobs = st.management_jobs) ∧
    ((models_to_cleanup opts).contains "workflow_jobs" = false →
      st2.workflow_jobs = st.workflow_jobs) ∧
    ((models_to_cleanup opts).contains "notifications" = false →
      st2.notifications = st.notifications) := by
  cases hc : computeCutoff nowv opts.days with
  | error e =>
    rw [handle_noargs_error opts nowv st e hc] at h
    exact absurd h (by simp)
  | ok cutoff =>
    rw [handle_noargs_ok opts nowv st cutoff hc] at h
    injection h with h2
    injection h2 with hsums hst
    refine ⟨?_, ?_, ?_, ?_, ?_, ?_, ?_, ?_, ?_, ?_⟩
    · rw [← hsums]
      simp only [List.map_append, runCat_map_category]
      exact (append_ite_singletons_eq_filter
        (fun n => (models_to_cleanup opts).contains n)).trans
        (models_to_cleanup_eq_filter_contains opts)
    · intro hall
      have hnil : model_names.filter (optFlag opts) = [] :=
        List.filter_eq_nil_iff.mpr (fun a ha => by simp [hall a ha])
      unfold models_to_cleanup
      simp [hnil]
    · rintro ⟨m, hm, hflag⟩
      have hne : model_names.filter (optFlag opts) ≠ [] := by
        intro hnil
        have := List.filter_eq_nil_iff.mp hnil m hm
        simp [hflag] at this
      have hemp : (model_names.filter (optFlag opts)).isEmpty = false := by
        cases hh : model_names.filter (optFlag opts) with
        | nil => exact absurd hh hne
        | cons a l => rfl
      unfold models_to_cleanup
      simp [hemp]
    all_goals intro ha
    all_goals rw [← hst]
    all_goals simp at ha
    all_goals simp [runCat, ha]

/-- Witness for C9: with only `--jobs` set, the run reports exactly
`jobs` and the notifications table is untouched. -/
theorem C9_witness :
    ([Summary.mk "jobs" 1 0].map Summary.category =
      models_to_cleanup (Options.mk 90 false true false false false false false false)) ∧
    ((Store.mk [] [] [] [] [] [] [SimpleRec.mk "failed" 1]).notifications =
      (Store.mk [SimpleRec.mk "successful" 1] [] [] [] [] [] [SimpleRec.mk "failed" 1]).notifications) := by
  have hrun : handle_noargs
      (Options.mk 90 false true false false false false false false) 739901
      (Store.mk [SimpleRec.mk "successful" 1] [] [] [] [] [] [SimpleRec.mk "failed" 1]) =
      Except.ok ([Summary.mk "jobs" 1 0],
        Store.mk [] [] [] [] [] [] [SimpleRec.mk "failed" 1]) := rfl
  have hC9 := C9_category_selection _ 739901 _ _ _ hrun
  exact ⟨hC9.1, hC9.2.2.2.2.2.2.2.2.2 (by decide)⟩

/-- C4: against the same snapshot, a dry-run and a non-dry-run
invocation return identical summaries (same per-category deleted and
skipped counts), and the dry run leaves the store exactly as it was. -/
theorem C4_dry_run_same_counts_no_mutation (opts : Options) (nowv : Int) (st : Store) :
    (handle_noargs { opts with dry_run := true } nowv st).map Prod.fst =
      (handle_noargs { opts with dry_run := false } nowv st).map Prod.fst ∧
    (∀ (sums : List Summary) (st2 : Store),
        handle_noargs { opts with dry_run := true } nowv st = Except.ok (sums, st2) →
        st2 = st) := by
  cases hc : computeCutoff nowv opts.days with
  | error e =>
    have h1 : handle_noargs { opts with dry_run := true } nowv st = Except.error e :=
      handle_noargs_error _ nowv st e hc
    have h2 : handle_noargs { opts with dry_run := false } nowv st = Except.error e :=
      handle_noargs_error _ nowv st e hc
    constructor
    · rw [h1, h2]
    · intro sums st2 hok
      rw [h1] at hok
      exact absurd hok (by simp)
  | ok cutoff =>
    have h1 := handle_noargs_ok { opts with dry_run := true } nowv st cutoff hc
    have h2 := handle_noargs_ok { opts with dry_run := false } nowv st cutoff hc
    have hselT : models_to_cleanup { opts with dry_run := true } = models_to_cleanup opts := rfl
    have hselF : models_to_cleanup { opts with dry_run := false } = models_to_cleanup opts := rfl
    have hdT : ({ opts with dry_run := true } : Options).dry_run = true := rfl
    have hdF : ({ opts with dry_run := false } : Options).dry_run = false := rfl
    rw [hselT, hdT] at h1
    rw [hselF, hdF] at h2
    constructor
    · rw [h1, h2]
      simp only [Except.map, cleanup_jobs, cleanup_ad_hoc_commands,
        cleanup_project_updates, cleanup_inventory_updates,
        cleanup_management_jobs, cleanup_workflow_jobs, cleanup_notifications,
        runCat_fst_dry]
    · intro sums st2 hok
      rw [h1] at hok
      injection hok with hok2
      injection hok2 with hsums hst
      rw [← hst]
      simp only [cleanup_jobs, cleanup_ad_hoc_commands,
        cleanup_project_updates, cleanup_inventory_updates,
        cleanup_management_jobs, cleanup_workflow_jobs, cleanup_notifications,
        runCat_snd_dry]

/-- Witness for C4: a dry run over a store with one old job reports it
as would-be-deleted and hands back the store unchanged. -/
theorem C4_witness :
    handle_noargs (Options.mk 90 true false false false false false false false) 739901
      (Store.mk [SimpleRec.mk "successful" 1] [] [] [] [] [] []) =
      Except.ok
        ([Summary.mk "jobs" 1 0, Summary.mk "ad_hoc_commands" 0 0,
          Summary.mk "project_updates" 0 0, Summary.mk "inventory_updates" 0 0,
          Summary.mk "management_jobs" 0 0, Summary.mk "workflow_jobs" 0 0,
          Summary.mk "notifications" 0 0],
         Store.mk [SimpleRec.mk "successful" 1] [] [] [] [] [] []) ∧
    Store.mk [SimpleRec.mk "successful" 1] [] [] [] [] [] [] =
      Store.mk [SimpleRec.mk "successful" 1] [] [] [] [] [] [] := by
  refine ⟨rfl, ?_⟩
  exact (C4_dry_run_same_counts_no_mutation
    (Options.mk 90 false false false false false false false false) 739901
    (Store.mk [SimpleRec.mk "successful" 1] [] [] [] [] [] [])).2 _ _ rfl

/-- C7: after a successful non-dry run, running the command again with
the same options at the same time deletes nothing, reproduces every
per-category skipped count, and leaves the store as the first run left
it. -/
theorem C7_second_run_deletes_nothing (opts : Options) (nowv : Int)
    (st st1 : Store) (sums1 : List Summary)
    (hdry : opts.dry_run = false)
    (h : handle_noargs opts nowv st = Except.ok (sums1, st1)) :
    ∃ sums2 : List Summary,
      handle_noargs opts nowv st1 = Except.ok (sums2, st1) ∧
      (∀ e ∈ sums2, e.deleted = 0) ∧
      sums2.map Summary.skipped = sums1.map Summary.skipped := by
  cases hc : computeCutoff nowv opts.days with
  | error e =>
    rw [handle_noargs_error opts nowv st e hc] at h
    exact absurd h (by simp)
  | ok cutoff =>
    rw [handle_noargs_ok opts nowv st cutoff hc, hdry] at h
    simp only [cleanup_jobs, cleanup_ad_hoc_commands, cleanup_project_updates,
      cleanup_inventory_updates, cleanup_management_jobs, cleanup_workflow_jobs,
      cleanup_notifications] at h
    injection h with h2
    injection h2 with hsums hst
    subst hsums
    subst hst
    rw [handle_noargs_ok opts nowv _ cutoff hc, hdry]
    simp only [cleanup_jobs, cleanup_ad_hoc_commands, cleanup_project_updates,
      cleanup_inventory_updates, cleanup_management_jobs, cleanup_workflow_jobs,
      cleanup_notifications]
    have hJ := runCat_second_run "jobs"
      ((models_to_cleanup opts).contains "jobs") (classify_job cutoff) st.jobs
    have hA := runCat_second_run "ad_hoc_commands"
      ((models_to_cleanup opts).contains "ad_hoc_commands") (classify_job cutoff)
      st.ad_hoc_commands
    have hP := runCat_second_run "project_updates"
      ((models_to_cleanup opts).contains "project_updates")
      (classify_project_update cutoff) st.project_updates
    have hI := runCat_second_run "inventory_updates"
      ((models_to_cleanup opts).contains "inventory_updates")
      (classify_inventory_update cutoff) st.inventory_updates
    have hM := runCat_second_run "management_jobs"
      ((models_to_cleanup opts).contains "management_jobs") (classify_job cutoff)
      st.management_jobs
    have hW := runCat_second_run "workflow_jobs"
      ((models_to_cleanup opts).contains "workflow_jobs") (classify_job cutoff)
      st.workflow_jobs
    have hN := runCat_second_run "notifications"
      ((models_to_cleanup opts).contains "notifications")
      (classify_notification cutoff) st.notifications
    rw [hJ.1, hA.1, hP.1, hI.1, hM.1, hW.1, hN.1]
    refine ⟨_, rfl, ?_, ?_⟩
    · intro e he
      simp only [List.mem_append] at he
      rcases he with ((((((he | he) | he) | he) | he) | he) | he)
      · exact hJ.2.1 e he
      · exact hA.2.1 e he
      · exact hP.2.1 e he
      · exact hI.2.1 e he
      · exact hM.2.1 e he
      · exact hW.2.1 e he
      · exact hN.2.1 e he
    · simp only [List.map_append]
      rw [hJ.2.2, hA.2.2, hP.2.2, hI.2.2, hM.2.2, hW.2.2, hN.2.2]

/-- Witness for C7: after a first run that deleted one old job and kept
one running job, the second run deletes nothing, repeats the skipped
counts and leaves the store alone. -/
theorem C7_witness :
    ∃ sums2 : List Summary,
      handle_noargs (Options.mk 90 false false false false false false false false)
        739901 (Store.mk [SimpleRec.mk "running" 1] [] [] [] [] [] []) =
        Except.ok (sums2, Store.mk [SimpleRec.mk "running" 1] [] [] [] [] [] []) ∧
      (∀ e ∈ sums2, e.deleted = 0) ∧
      sums2.map Summary.skipped =
        ([Summary.mk "jobs" 1 1, Summary.mk "ad_hoc_commands" 0 0,
          Summary.mk "project_updates" 0 0, Summary.mk "inventory_updates" 0 0,
          Summary.mk "management_jobs" 0 0, Summary.mk "workflow_jobs" 0 0,
          Summary.mk "notifications" 0 0]).map Summary.skipped :=
  C7_second_run_deletes_nothing
    (Options.mk 90 false false false false false false false false) 739901
    (Store.mk [SimpleRec.mk "successful" 1, SimpleRec.mk "running" 1] [] [] [] [] [] [])
    (Store.mk [SimpleRec.mk "running" 1] [] [] [] [] [] [])
    [Summary.mk "jobs" 1 1, Summary.mk "ad_hoc_commands" 0 0,
     Summary.mk "project_updates" 0 0, Summary.mk "inventory_updates" 0 0,
     Summary.mk "management_jobs" 0 0, Summary.mk "workflow_jobs" 0 0,
     Summary.mk "notifications" 0 0] rfl rfl
